import Mathlib

/-!
Shallow embedding of src/bp.py, a small framework for fixed-layout binary
records: typed fields (Int8/Int16/Int32/String) aggregated into a Struct that
reads and writes byte streams.

Modelling conventions:
- a byte stream is a List Nat of remaining bytes (each value in [0, 256));
  stream.read(k) takes up to k bytes off the front;
- a Python value (SerializableType, plus the None default and booleans) is
  PyValue; Python text is modelled as its list of Unicode code points;
- Python exceptions are a PyError value; fallible operations return Except
  or carry an Option PyError next to the resulting state;
- Struct.read and Struct.set mutate the field list in place in Python, so the
  model returns the resulting field list together with the error outcome, which
  captures the partially-mutated state on failure.
-/

namespace BP

/-- Byte order selector, modelling the struct-module format prefixes
"<" (little) and ">" (big). The source defaults every numeric read/write
to "<". -/
inductive Endian
  | little
  | big
deriving DecidableEq

/-- A Python runtime value as far as this framework can observe it:
None (the unset Field default), an int, a bool (a distinct runtime type in
Python even though bool subclasses int), or a str given by its code points. -/
inductive PyValue
  | none
  | int (n : Int)
  | bool (b : Bool)
  | str (cps : List Nat)
deriving DecidableEq

/-- The exceptions the source can raise: the two framework exceptions
FieldNotFound and FieldValidationError (each constructed with the field
name), struct.error (bad unpack length or pack out of range), codec errors
from str.encode/bytes.decode, and TypeError (a call with a missing required
positional argument). -/
inductive PyError
  | fieldNotFound (name : String)
  | fieldValidationError (name : String)
  | structError
  | unicodeDecodeError
  | unicodeEncodeError
  | typeError
deriving DecidableEq

/-- Models stream.read(k) on a binary stream: returns up to k bytes from the
front (fewer when the stream is shorter) and the remaining stream. -/
def streamRead (s : List Nat) (k : Nat) : List Nat × List Nat :=
  (s.take k, s.drop k)

/-- Little-endian base-256 digits of v, exactly w bytes (v is taken mod 2^(8w)). -/
def leBytes : Nat → Nat → List Nat
  | 0, _ => []
  | w + 1, v => v % 256 :: leBytes w (v / 256)

/-- Reassembles a little-endian byte list into the unsigned value it denotes. -/
def fromLEBytes : List Nat → Nat
  | [] => 0
  | b :: bs => b + 256 * fromLEBytes bs

/-- Puts a little-endian byte list into wire order for the chosen byte order
(and, being an involution, also converts wire order back to little-endian). -/
def orient (e : Endian) (bs : List Nat) : List Nat :=
  match e with
  | .little => bs
  | .big => bs.reverse

/-- Reads an unsigned w-byte value as a two's-complement signed integer. -/
def toSigned (w : Nat) (v : Nat) : Int :=
  if v < 2 ^ (8 * w - 1) then (v : Int) else (v : Int) - 2 ^ (8 * w)

/-- Models st.pack for the signed formats b/h/i of width w with a byte-order
prefix: fails with struct.error when the number is outside the signed range of
the format, otherwise yields the w bytes of the two's-complement encoding in
the requested byte order. -/
def st_pack (w : Nat) (e : Endian) (n : Int) : Except PyError (List Nat) :=
  if -(2 ^ (8 * w - 1)) ≤ n ∧ n < 2 ^ (8 * w - 1) then
    .ok (orient e (leBytes w (Int.toNat (n % 2 ^ (8 * w)))))
  else
    .error .structError

/-- Models st.unpack for the signed formats b/h/i of width w: fails with
struct.error unless the buffer length equals calcsize (so a short read from a
truncated stream fails), otherwise decodes two's complement in the requested
byte order. -/
def st_unpack (w : Nat) (e : Endian) (data : List Nat) : Except PyError Int :=
  if data.length = w then
    .ok (toSigned w (fromLEBytes (orient e data)))
  else
    .error .structError

/-- UTF-8 encoding of one code point (1 to 4 bytes). -/
def utf8EncodeChar (c : Nat) : List Nat :=
  if c < 0x80 then [c]
  else if c < 0x800 then [0xC0 + c / 64, 0x80 + c % 64]
  else if c < 0x10000 then [0xE0 + c / 4096, 0x80 + c / 64 % 64, 0x80 + c % 64]
  else [0xF0 + c / 262144, 0x80 + c / 4096 % 64, 0x80 + c / 64 % 64, 0x80 + c % 64]

/-- Models str.encode("utf-8") on a list of code points: fails with a codec
error on surrogate code points (which a Python str can hold but UTF-8 refuses
to encode), otherwise concatenates the per-character encodings. -/
def utf8Encode (cps : List Nat) : Except PyError (List Nat) :=
  if cps.all (fun c => c ≤ 0x10FFFF ∧ ¬(0xD800 ≤ c ∧ c ≤ 0xDFFF)) then
    .ok (cps.map utf8EncodeChar).flatten
  else
    .error .unicodeEncodeError

/-- Models bytes.decode("utf-8"): strict UTF-8 decoding of a byte list into
code points, rejecting malformed leads, missing or malformed continuations,
overlong forms, surrogates and values above 0x10FFFF. -/
def utf8Decode : List Nat → Option (List Nat)
  | [] => some []
  | b :: bs =>
    if b < 0x80 then
      (utf8Decode bs).map (fun r => b :: r)
    else if 0xC2 ≤ b ∧ b ≤ 0xDF then
      match bs with
      | b1 :: rest =>
        if 0x80 ≤ b1 ∧ b1 ≤ 0xBF then
          (utf8Decode rest).map (fun r => ((b - 0xC0) * 64 + (b1 - 0x80)) :: r)
        else none
      | [] => none
    else if 0xE0 ≤ b ∧ b ≤ 0xEF then
      match bs with
      | b1 :: b2 :: rest =>
        if (0x80 ≤ b1 ∧ b1 ≤ 0xBF) ∧ (0x80 ≤ b2 ∧ b2 ≤ 0xBF) then
          if 0x800 ≤ (b - 0xE0) * 4096 + (b1 - 0x80) * 64 + (b2 - 0x80) ∧
              ¬(0xD800 ≤ (b - 0xE0) * 4096 + (b1 - 0x80) * 64 + (b2 - 0x80) ∧
                (b - 0xE0) * 4096 + (b1 - 0x80) * 64 + (b2 - 0x80) ≤ 0xDFFF) then
            (utf8Decode rest).map (fun r => ((b - 0xE0) * 4096 + (b1 - 0x80) * 64 + (b2 - 0x80)) :: r)
          else none
        else none
      | [b1] =>
        if 0x80 ≤ b1 ∧ b1 ≤ 0xBF then none else none
      | [] => none
    else if 0xF0 ≤ b ∧ b ≤ 0xF4 then
      match bs with
      | b1 :: b2 :: b3 :: rest =>
        if (0x80 ≤ b1 ∧ b1 ≤ 0xBF) ∧ (0x80 ≤ b2 ∧ b2 ≤ 0xBF) ∧ (0x80 ≤ b3 ∧ b3 ≤ 0xBF) then
          if 0x10000 ≤ (b - 0xF0) * 262144 + (b1 - 0x80) * 4096 + (b2 - 0x80) * 64 + (b3 - 0x80) ∧
              (b - 0xF0) * 262144 + (b1 - 0x80) * 4096 + (b2 - 0x80) * 64 + (b3 - 0x80) ≤ 0x10FFFF then
            (utf8Decode rest).map
              (fun r => ((b - 0xF0) * 262144 + (b1 - 0x80) * 4096 + (b2 - 0x80) * 64 + (b3 - 0x80)) :: r)
          else none
        else none
      | _ => none
    else none

/-- Models type(obj) == int: true exactly for int values. In Python this exact
type equality is False for booleans even though bool subclasses int. -/
def typeIsInt : PyValue → Bool
  | .int _ => true
  | _ => false

/-- Models type(obj) == str: true exactly for str values. -/
def typeIsStr : PyValue → Bool
  | .str _ => true
  | _ => false

namespace Int8

/-- Int8.verify from the source: return type(obj) == int. No range check (the
source leaves that as a TODO). -/
def verify (obj : PyValue) : Bool :=
  typeIsInt obj

/-- Int8.read from the source: fmt is endian plus "b" (calcsize 1); it reads
calcsize bytes from the stream and unpacks them, the unpack raising
struct.error on a short read. -/
def read (s : List Nat) (endian : Endian) : Except PyError (Int × List Nat) :=
  let r := streamRead s 1
  (st_unpack 1 endian r.1).map (fun n => (n, r.2))

/-- Int8.write from the source: packs the number with format endian plus "b"
and writes the bytes to the stream; the model returns the bytes written. -/
def write (number : Int) (endian : Endian) : Except PyError (List Nat) :=
  st_pack 1 endian number

end Int8

namespace Int16

/-- Int16.verify from the source: return type(obj) == int, no range check. -/
def verify (obj : PyValue) : Bool :=
  typeIsInt obj

/-- Int16.read from the source: format endian plus "h", calcsize 2. -/
def read (s : List Nat) (endian : Endian) : Except PyError (Int × List Nat) :=
  let r := streamRead s 2
  (st_unpack 2 endian r.1).map (fun n => (n, r.2))

/-- Int16.write from the source: packs with format endian plus "h". -/
def write (number : Int) (endian : Endian) : Except PyError (List Nat) :=
  st_pack 2 endian number

end Int16

namespace Int32

/-- Int32.verify from the source: return type(obj) == int, no range check. -/
def verify (obj : PyValue) : Bool :=
  typeIsInt obj

/-- Int32.read from the source: format endian plus "i", calcsize 4. -/
def read (s : List Nat) (endian : Endian) : Except PyError (Int × List Nat) :=
  let r := streamRead s 4
  (st_unpack 4 endian r.1).map (fun n => (n, r.2))

/-- Int32.write from the source: packs with format endian plus "i". -/
def write (number : Int) (endian : Endian) : Except PyError (List Nat) :=
  st_pack 4 endian number

end Int32

namespace StringT

/-- String.verify from the source: return type(obj) == str. -/
def verify (obj : PyValue) : Bool :=
  typeIsStr obj

/-- String.read from the source: stream.read(size).decode(encoding) with
encoding utf-8. Note stream.read(size) yields whatever bytes are available, so
a short stream gives a short buffer that is decoded as-is with no length
check. -/
def read (s : List Nat) (size : Nat) : Except PyError (List Nat × List Nat) :=
  let r := streamRead s size
  match utf8Decode r.1 with
  | some cps => .ok (cps, r.2)
  | Option.none => .error .unicodeDecodeError

/-- String.write from the source: stream.write(string.encode(encoding)) with
encoding utf-8; the model returns the bytes written. -/
def write (string : List Nat) : Except PyError (List Nat) :=
  utf8Encode string

end StringT

/-- A concrete Type instance as held by a Field: one of the three numeric
classes, or a String instance carrying the length it was constructed with
(stored as self.length in the source and never consulted afterwards). -/
inductive Ty
  | int8
  | int16
  | int32
  | string (length : Nat)
deriving DecidableEq

/-- Dispatch of field.type.verify(value) as Struct.set performs it. -/
def Ty.verify : Ty → PyValue → Bool
  | .int8, v => Int8.verify v
  | .int16, v => Int16.verify v
  | .int32, v => Int32.verify v
  | .string _, v => StringT.verify v

/-- Dispatch of field.type.read(in_stream) exactly as Struct.read performs it:
only the stream is passed. The numeric classes fall back to their default
byte order "<". String.read declares size as a required positional parameter,
so the call raises TypeError before touching the stream; the stored
String length is never used. -/
def Ty.read : Ty → List Nat → Except PyError (PyValue × List Nat)
  | .int8, s => (Int8.read s .little).map (fun p => (.int p.1, p.2))
  | .int16, s => (Int16.read s .little).map (fun p => (.int p.1, p.2))
  | .int32, s => (Int32.read s .little).map (fun p => (.int p.1, p.2))
  | .string _, _ => .error .typeError

/-- Dispatch of field.type.write(out_stream, field.value) exactly as
Struct.write performs it: the numeric classes use their default byte order
"<"; st.pack itself accepts bools as integers but raises struct.error on a
non-integer argument such as None or a str; str.encode is only defined on a
str value, so String.write on any other value raises at the encode call. -/
def Ty.write : Ty → PyValue → Except PyError (List Nat)
  | .int8, .int n => Int8.write n .little
  | .int8, .bool b => Int8.write (if b then 1 else 0) .little
  | .int8, _ => .error .structError
  | .int16, .int n => Int16.write n .little
  | .int16, .bool b => Int16.write (if b then 1 else 0) .little
  | .int16, _ => .error .structError
  | .int32, .int n => Int32.write n .little
  | .int32, .bool b => Int32.write (if b then 1 else 0) .little
  | .int32, _ => .error .structError
  | .string _, .str cps => StringT.write cps
  | .string _, _ => .error .typeError

/-- Field from the source: a name bound to a Type instance together with the
current value (default None when not supplied). -/
structure Field where
  name : String
  type : Ty
  value : PyValue
deriving DecidableEq

/-- The linear scan shared by Struct.get and Struct.set: the first field whose
name equals the requested name, if any. -/
def findField : List Field → String → Option Field
  | [], _ => Option.none
  | f :: fs, name => if f.name = name then some f else findField fs name

/-- Loop of Struct.read over the field list: each field in declaration order
gets field.value = field.type.read(in_stream). The result is the field list
after the loop together with the outcome: the remaining stream on success, or
the exception that aborted the loop, in which case the earlier fields keep
their freshly assigned values and the later ones are untouched. -/
def readFields : List Field → List Nat → List Field × Except PyError (List Nat)
  | [], s => ([], .ok s)
  | f :: fs, s =>
    match f.type.read s with
    | .ok p =>
      let r := readFields fs p.2
      ({ f with value := p.1 } :: r.1, r.2)
    | .error e => (f :: fs, .error e)

/-- Loop of Struct.write over the field list: each field in declaration order
gets field.type.write(out_stream, field.value); the model returns the
concatenation of the bytes written, or the exception that aborted the loop. -/
def writeFields : List Field → Except PyError (List Nat)
  | [] => .ok []
  | f :: fs => do
    let b ← f.type.write f.value
    let rest ← writeFields fs
    .ok (b ++ rest)

/-- Loop of Struct.set: scan for the first field with the requested name; on a
match, verify the value, then either assign and return, or raise
FieldValidationError; past the loop raise FieldNotFound. The model returns the
resulting field list next to the raised exception, if any. -/
def setFields : List Field → String → PyValue → List Field × Option PyError
  | [], name, _ => ([], some (.fieldNotFound name))
  | f :: fs, name, v =>
    if f.name = name then
      if f.type.verify v then
        ({ f with value := v } :: fs, Option.none)
      else
        (f :: fs, some (.fieldValidationError name))
    else
      let r := setFields fs name v
      (f :: r.1, r.2)

/-- Loop of Struct.get: return the value of the first field with the requested
name, else raise FieldNotFound. -/
def getFields : List Field → String → Except PyError PyValue
  | [], name => .error (.fieldNotFound name)
  | f :: fs, name => if f.name = name then .ok f.value else getFields fs name

/-- Struct from the source: the ordered field tuple fixed at construction. -/
structure Struct where
  fields : List Field
deriving DecidableEq

/-- Struct.read: run the field loop on the stream; the model returns the
struct as mutated by the loop together with the loop outcome. -/
def Struct.read (self : Struct) (in_stream : List Nat) :
    Struct × Except PyError (List Nat) :=
  let r := readFields self.fields in_stream
  (⟨r.1⟩, r.2)

/-- Struct.write: run the field loop; the model returns the bytes written. -/
def Struct.write (self : Struct) : Except PyError (List Nat) :=
  writeFields self.fields

/-- Struct.set: run the scan loop; the model returns the struct as mutated
together with the raised exception, if any. -/
def Struct.set (self : Struct) (name : String) (value : PyValue) :
    Struct × Option PyError :=
  let r := setFields self.fields name value
  (⟨r.1⟩, r.2)

/-- Struct.get: return the first matching field value or raise. -/
def Struct.get (self : Struct) (name : String) : Except PyError PyValue :=
  getFields self.fields name

deriving instance DecidableEq for Except

lemma leBytes_length (w v : Nat) : (leBytes w v).length = w := by
  induction w generalizing v with
  | zero => rfl
  | succ w ih => simp [leBytes, ih]

lemma orient_length (e : Endian) (bs : List Nat) : (orient e bs).length = bs.length := by
  cases e <;> simp [orient]

lemma orient_orient (e : Endian) (bs : List Nat) : orient e (orient e bs) = bs := by
  cases e <;> simp [orient]

lemma fromLEBytes_leBytes (w v : Nat) : fromLEBytes (leBytes w v) = v % 2 ^ (8 * w) := by
  induction w generalizing v with
  | zero => simp [leBytes, fromLEBytes, Nat.mod_one]
  | succ w ih =>
    rw [leBytes, fromLEBytes, ih]
    rw [show 8 * (w + 1) = 8 + 8 * w by ring, pow_add]
    rw [show (2 : Nat) ^ 8 = 256 by norm_num]
    rw [Nat.mod_mul]

lemma streamRead_append (bs rest : List Nat) (w : Nat) (h : bs.length = w) :
    streamRead (bs ++ rest) w = (bs, rest) := by
  subst h
  simp [streamRead, List.take_left, List.drop_left]

lemma toSigned_roundtrip_1 (n : Int) (h1 : -128 ≤ n) (h2 : n < 128) :
    toSigned 1 (Int.toNat (n % 2 ^ (8 * 1)) % 2 ^ (8 * 1)) = n := by
  unfold toSigned
  norm_num
  split <;> omega

lemma toSigned_roundtrip_2 (n : Int) (h1 : -32768 ≤ n) (h2 : n < 32768) :
    toSigned 2 (Int.toNat (n % 2 ^ (8 * 2)) % 2 ^ (8 * 2)) = n := by
  unfold toSigned
  norm_num
  split <;> omega

lemma toSigned_roundtrip_4 (n : Int) (h1 : -2147483648 ≤ n) (h2 : n < 2147483648) :
    toSigned 4 (Int.toNat (n % 2 ^ (8 * 4)) % 2 ^ (8 * 4)) = n := by
  unfold toSigned
  norm_num
  split <;> omega

lemma st_unpack_pack_1 (e : Endian) (n : Int) (h1 : -128 ≤ n) (h2 : n < 128) :
    st_unpack 1 e (orient e (leBytes 1 (Int.toNat (n % 2 ^ (8 * 1))))) = .ok n := by
  rw [st_unpack, if_pos (by rw [orient_length, leBytes_length]), orient_orient,
    fromLEBytes_leBytes]
  exact congrArg Except.ok (toSigned_roundtrip_1 n h1 h2)

lemma st_unpack_pack_2 (e : Endian) (n : Int) (h1 : -32768 ≤ n) (h2 : n < 32768) :
    st_unpack 2 e (orient e (leBytes 2 (Int.toNat (n % 2 ^ (8 * 2))))) = .ok n := by
  rw [st_unpack, if_pos (by rw [orient_length, leBytes_length]), orient_orient,
    fromLEBytes_leBytes]
  exact congrArg Except.ok (toSigned_roundtrip_2 n h1 h2)

lemma st_unpack_pack_4 (e : Endian) (n : Int)
    (h1 : -2147483648 ≤ n) (h2 : n < 2147483648) :
    st_unpack 4 e (orient e (leBytes 4 (Int.toNat (n % 2 ^ (8 * 4))))) = .ok n := by
  rw [st_unpack, if_pos (by rw [orient_length, leBytes_length]), orient_orient,
    fromLEBytes_leBytes]
  exact congrArg Except.ok (toSigned_roundtrip_4 n h1 h2)

lemma st_pack_ok_1 (e : Endian) (n : Int) (h1 : -128 ≤ n) (h2 : n < 128) :
    st_pack 1 e n = .ok (orient e (leBytes 1 (Int.toNat (n % 2 ^ (8 * 1))))) := by
  rw [st_pack, if_pos]
  constructor <;> norm_num <;> omega

lemma st_pack_ok_2 (e : Endian) (n : Int) (h1 : -32768 ≤ n) (h2 : n < 32768) :
    st_pack 2 e n = .ok (orient e (leBytes 2 (Int.toNat (n % 2 ^ (8 * 2))))) := by
  rw [st_pack, if_pos]
  constructor <;> norm_num <;> omega

lemma st_pack_ok_4 (e : Endian) (n : Int)
    (h1 : -2147483648 ≤ n) (h2 : n < 2147483648) :
    st_pack 4 e n = .ok (orient e (leBytes 4 (Int.toNat (n % 2 ^ (8 * 4))))) := by
  rw [st_pack, if_pos]
  constructor <;> norm_num <;> omega

lemma int8_read_append (e : Endian) (n : Int) (rest : List Nat)
    (h1 : -128 ≤ n) (h2 : n < 128) :
    Int8.read (orient e (leBytes 1 (Int.toNat (n % 2 ^ (8 * 1)))) ++ rest) e
      = .ok (n, rest) := by
  rw [Int8.read, streamRead_append _ _ _ (by rw [orient_length, leBytes_length]),
    st_unpack_pack_1 e n h1 h2]
  rfl

lemma int16_read_append (e : Endian) (n : Int) (rest : List Nat)
    (h1 : -32768 ≤ n) (h2 : n < 32768) :
    Int16.read (orient e (leBytes 2 (Int.toNat (n % 2 ^ (8 * 2)))) ++ rest) e
      = .ok (n, rest) := by
  rw [Int16.read, streamRead_append _ _ _ (by rw [orient_length, leBytes_length]),
    st_unpack_pack_2 e n h1 h2]
  rfl

lemma int32_read_append (e : Endian) (n : Int) (rest : List Nat)
    (h1 : -2147483648 ≤ n) (h2 : n < 2147483648) :
    Int32.read (orient e (leBytes 4 (Int.toNat (n % 2 ^ (8 * 4)))) ++ rest) e
      = .ok (n, rest) := by
  rw [Int32.read, streamRead_append _ _ _ (by rw [orient_length, leBytes_length]),
    st_unpack_pack_4 e n h1 h2]
  rfl

lemma findField_none_get (fields : List Field) (name : String)
    (hf : findField fields name = Option.none) :
    getFields fields name = .error (.fieldNotFound name) := by
  induction fields with
  | nil => rfl
  | cons g gs ih =>
    by_cases h : g.name = name
    · simp [findField, h] at hf
    · simp only [findField, if_neg h] at hf
      simp only [getFields, if_neg h]
      exact ih hf

lemma findField_some_get (fields : List Field) (name : String) (f : Field)
    (hf : findField fields name = some f) :
    getFields fields name = .ok f.value := by
  induction fields with
  | nil => simp [findField] at hf
  | cons g gs ih =>
    by_cases h : g.name = name
    · simp only [findField, if_pos h, Option.some_inj] at hf
      subst hf
      simp [getFields, h]
    · simp only [findField, if_neg h] at hf
      simp only [getFields, if_neg h]
      exact ih hf

lemma findField_none_set (fields : List Field) (name : String) (v : PyValue)
    (hf : findField fields name = Option.none) :
    setFields fields name v = (fields, some (.fieldNotFound name)) := by
  induction fields with
  | nil => rfl
  | cons g gs ih =>
    by_cases h : g.name = name
    · simp [findField, h] at hf
    · simp only [findField, if_neg h] at hf
      simp only [setFields, if_neg h, ih hf]

lemma findField_some_set_invalid (fields : List Field) (name : String) (v : PyValue)
    (f : Field) (hf : findField fields name = some f) (hv : f.type.verify v = false) :
    setFields fields name v = (fields, some (.fieldValidationError name)) := by
  induction fields with
  | nil => simp [findField] at hf
  | cons g gs ih =>
    by_cases h : g.name = name
    · simp only [findField, if_pos h, Option.some_inj] at hf
      subst hf
      simp [setFields, h, hv]
    · simp only [findField, if_neg h] at hf
      simp only [setFields, if_neg h, ih hf]

lemma findField_some_set_valid (fields : List Field) (name : String) (v : PyValue)
    (f : Field) (hf : findField fields name = some f) (hv : f.type.verify v = true) :
    (setFields fields name v).2 = Option.none ∧
    getFields (setFields fields name v).1 name = .ok v := by
  induction fields with
  | nil => simp [findField] at hf
  | cons g gs ih =>
    by_cases h : g.name = name
    · simp only [findField, if_pos h, Option.some_inj] at hf
      subst hf
      simp [setFields, h, hv, getFields]
    · simp only [findField, if_neg h] at hf
      have := ih hf
      simp only [setFields, if_neg h]
      refine ⟨this.1, ?_⟩
      simpa [getFields, if_neg h] using this.2

lemma setFields_none_decomp (fields : List Field) (name : String) (v : PyValue)
    (hs : (setFields fields name v).2 = Option.none) :
    ∃ pre f post, fields = pre ++ f :: post ∧ (∀ g ∈ pre, g.name ≠ name) ∧
      f.name = name ∧ f.type.verify v = true ∧
      (setFields fields name v).1 = pre ++ { f with value := v } :: post := by
  induction fields with
  | nil => simp [setFields] at hs
  | cons g gs ih =>
    by_cases h : g.name = name
    · by_cases hv : g.type.verify v = true
      · exact ⟨[], g, gs, by simp, by simp, h, hv, by simp [setFields, h, hv]⟩
      · simp [setFields, h, hv] at hs
    · simp only [setFields, if_neg h] at hs
      obtain ⟨pre, f, post, hfs, hpre, hname, hver, hres⟩ := ih hs
      refine ⟨g :: pre, f, post, by simp [hfs], ?_, hname, hver, ?_⟩
      · intro x hx
        rcases List.mem_cons.mp hx with hxg | hxp
        · subst hxg; exact h
        · exact hpre x hxp
      · simp only [setFields, if_neg h, List.cons_append, List.cons_inj_right]
        exact hres

lemma setFields_error_unchanged (fields : List Field) (name : String) (v : PyValue)
    (hs : (setFields fields name v).2 ≠ Option.none) :
    (setFields fields name v).1 = fields := by
  cases hfind : findField fields name with
  | none => rw [findField_none_set fields name v hfind]
  | some f =>
    cases hv : f.type.verify v with
    | false => rw [findField_some_set_invalid fields name v f hfind hv]
    | true => exact absurd (findField_some_set_valid fields name v f hfind hv).1 hs

lemma readFields_append_error (pre : List Field) (f : Field) (post : List Field)
    (s s' : List Nat) (pre' : List Field) (err : PyError)
    (h1 : readFields pre s = (pre', .ok s'))
    (h2 : f.type.read s' = .error err) :
    readFields (pre ++ f :: post) s = (pre' ++ f :: post, .error err) := by
  induction pre generalizing s pre' with
  | nil =>
    simp only [readFields, Prod.mk.injEq] at h1
    obtain ⟨hp, hsfx⟩ := h1
    cases hsfx
    subst hp
    simp only [List.nil_append, readFields, h2]
  | cons g gs ih =>
    rw [readFields] at h1
    cases hr : g.type.read s with
    | error e2 =>
      rw [hr] at h1
      simp at h1
    | ok p =>
      rw [hr] at h1
      simp only [Prod.mk.injEq] at h1
      obtain ⟨hp, hsfx⟩ := h1
      have hgs : readFields gs p.2 = ((readFields gs p.2).1, .ok s') := by
        rw [← hsfx]
      simp only [List.cons_append, readFields, hr, List.append_eq]
      rw [ih p.2 (readFields gs p.2).1 hgs]
      simp [← hp]

/-- C3: for every Struct and every name matching some field, set(name, value)
calls that field's type.verify(value); on success it assigns the value to the
first matching field and returns, and a subsequent get(name) returns that
value; on verify failure it raises FieldValidationError naming the field. -/
theorem C3_set_verifies_then_assigns_first_match (s : Struct) (name : String)
    (v : PyValue) (f : Field) (hf : findField s.fields name = some f) :
    (f.type.verify v = true →
      (s.set name v).2 = Option.none ∧ ((s.set name v).1).get name = .ok v) ∧
    (f.type.verify v = false →
      (s.set name v).2 = some (.fieldValidationError name)) := by
  obtain ⟨fields⟩ := s
  simp only [Struct.set, Struct.get]
  constructor
  · intro hv
    exact findField_some_set_valid fields name v f hf hv
  · intro hv
    rw [findField_some_set_invalid fields name v f hf hv]

/-- Witness for C3: on a Struct with one Int32 field named age, set with a
str value raises FieldValidationError, while set with the int 42 succeeds and
get then returns 42. -/
theorem C3_set_verifies_then_assigns_first_match_witness :
    (Struct.set ⟨[⟨"age", Ty.int32, .none⟩]⟩ "age" (.int 42)).2 = Option.none ∧
    ((Struct.set ⟨[⟨"age", Ty.int32, .none⟩]⟩ "age" (.int 42)).1).get "age"
      = .ok (.int 42) ∧
    (Struct.set ⟨[⟨"age", Ty.int32, .none⟩]⟩ "age"
        (.str [110, 111, 116])).2 = some (.fieldValidationError "age") := by
  refine ⟨?_, ?_, ?_⟩
  · exact ((C3_set_verifies_then_assigns_first_match ⟨[⟨"age", Ty.int32, .none⟩]⟩
      "age" (.int 42) ⟨"age", Ty.int32, .none⟩ (by decide)).1 (by decide)).1
  · exact ((C3_set_verifies_then_assigns_first_match ⟨[⟨"age", Ty.int32, .none⟩]⟩
      "age" (.int 42) ⟨"age", Ty.int32, .none⟩ (by decide)).1 (by decide)).2
  · exact (C3_set_verifies_then_assigns_first_match ⟨[⟨"age", Ty.int32, .none⟩]⟩
      "age" (.str [110, 111, 116]) ⟨"age", Ty.int32, .none⟩ (by decide)).2 (by decide)

/-- C4: for every Struct and every name that matches no field, both get(name)
and set(name, value) fail with FieldNotFound; and get on a matching name
returns the first matching field's value via the linear scan. -/
theorem C4_missing_name_raises_fieldNotFound (s : Struct) (name : String)
    (v : PyValue) :
    (findField s.fields name = Option.none →
      s.get name = .error (.fieldNotFound name) ∧
      (s.set name v).2 = some (.fieldNotFound name)) ∧
    (∀ f : Field, findField s.fields name = some f → s.get name = .ok f.value) := by
  obtain ⟨fields⟩ := s
  simp only [Struct.get, Struct.set]
  constructor
  · intro hf
    refine ⟨findField_none_get fields name hf, ?_⟩
    rw [findField_none_set fields name v hf]
  · intro f hf
    exact findField_some_get fields name f hf

/-- Witness for C4: a Struct with one field named age raises FieldNotFound
from both get and set for the name missing, and get of age returns the first
matching field's value. -/
theorem C4_missing_name_raises_fieldNotFound_witness :
    Struct.get ⟨[⟨"age", Ty.int32, .int 7⟩]⟩ "missing"
      = .error (.fieldNotFound "missing") ∧
    (Struct.set ⟨[⟨"age", Ty.int32, .int 7⟩]⟩ "missing" (.int 1)).2
      = some (.fieldNotFound "missing") ∧
    Struct.get ⟨[⟨"age", Ty.int32, .int 7⟩]⟩ "age" = .ok (.int 7) := by
  refine ⟨?_, ?_, ?_⟩
  · exact ((C4_missing_name_raises_fieldNotFound ⟨[⟨"age", Ty.int32, .int 7⟩]⟩
      "missing" (.int 1)).1 (by decide)).1
  · exact ((C4_missing_name_raises_fieldNotFound ⟨[⟨"age", Ty.int32, .int 7⟩]⟩
      "missing" (.int 1)).1 (by decide)).2
  · exact (C4_missing_name_raises_fieldNotFound ⟨[⟨"age", Ty.int32, .int 7⟩]⟩
      "age" (.int 1)).2 ⟨"age", Ty.int32, .int 7⟩ (by decide)

/-- C6: for each of Int8, Int16 and Int32, verify returns true for every
integer value regardless of magnitude (no range check), and returns true only
for integer-typed values; in particular it returns false on text values. -/
theorem C6_int_verify_is_exact_type_check_without_bounds (t : Ty)
    (ht : t = Ty.int8 ∨ t = Ty.int16 ∨ t = Ty.int32) :
    (∀ n : Int, t.verify (.int n) = true) ∧
    (∀ cps : List Nat, t.verify (.str cps) = false) ∧
    (∀ v : PyValue, t.verify v = true → ∃ n : Int, v = .int n) := by
  have key : ∀ v, t.verify v = typeIsInt v := by
    rcases ht with rfl | rfl | rfl <;> intro v <;> rfl
  refine ⟨fun n => by rw [key]; rfl, fun cps => by rw [key]; rfl, fun v hv => ?_⟩
  rw [key] at hv
  cases v with
  | int n => exact ⟨n, rfl⟩
  | none => simp [typeIsInt] at hv
  | bool b => simp [typeIsInt] at hv
  | str cps => simp [typeIsInt] at hv

/-- Witness for C6: Int8.verify accepts the out-of-range integer 1000000 and
rejects a str value. -/
theorem C6_int_verify_is_exact_type_check_without_bounds_witness :
    Ty.verify Ty.int8 (.int 1000000) = true ∧
    Ty.verify Ty.int8 (.str [104, 105]) = false := by
  constructor
  · exact (C6_int_verify_is_exact_type_check_without_bounds Ty.int8
      (Or.inl rfl)).1 1000000
  · exact (C6_int_verify_is_exact_type_check_without_bounds Ty.int8
      (Or.inl rfl)).2.1 [104, 105]

/-- C9: a successful set mutates only the value of the first field whose name
matches, keeping every other field and every name and type unchanged; a set
that raises leaves the Struct entirely unchanged. -/
theorem C9_set_frame_condition (s : Struct) (name : String) (v : PyValue) :
    ((s.set name v).2 = Option.none →
      ∃ pre f post, s.fields = pre ++ f :: post ∧ (∀ g ∈ pre, g.name ≠ name) ∧
        f.name = name ∧ f.type.verify v = true ∧
        ((s.set name v).1).fields = pre ++ { f with value := v } :: post) ∧
    ((s.set name v).2 ≠ Option.none → (s.set name v).1 = s) := by
  obtain ⟨fields⟩ := s
  simp only [Struct.set]
  constructor
  · intro hs
    exact setFields_none_decomp fields name v hs
  · intro hs
    exact congrArg Struct.mk (setFields_error_unchanged fields name v hs)

/-- Witness for C9: on a two-field Struct, a successful set of the field b
rewrites exactly that field, and a failing set (name miss) leaves the Struct
unchanged. -/
theorem C9_set_frame_condition_witness :
    (∃ pre f post,
      ([⟨"a", Ty.int8, .int 1⟩, ⟨"b", Ty.int16, .int 2⟩] : List Field)
        = pre ++ f :: post ∧
      (∀ g ∈ pre, g.name ≠ "b") ∧ f.name = "b" ∧ f.type.verify (.int 9) = true ∧
      ((Struct.set ⟨[⟨"a", Ty.int8, .int 1⟩, ⟨"b", Ty.int16, .int 2⟩]⟩ "b"
          (.int 9)).1).fields = pre ++ { f with value := .int 9 } :: post) ∧
    (Struct.set ⟨[⟨"a", Ty.int8, .int 1⟩, ⟨"b", Ty.int16, .int 2⟩]⟩ "zz"
        (.int 9)).1 = ⟨[⟨"a", Ty.int8, .int 1⟩, ⟨"b", Ty.int16, .int 2⟩]⟩ := by
  constructor
  · exact (C9_set_frame_condition
      ⟨[⟨"a", Ty.int8, .int 1⟩, ⟨"b", Ty.int16, .int 2⟩]⟩ "b" (.int 9)).1 (by decide)
  · exact (C9_set_frame_condition
      ⟨[⟨"a", Ty.int8, .int 1⟩, ⟨"b", Ty.int16, .int 2⟩]⟩ "zz" (.int 9)).2 (by decide)

/-- C10: the integer types' verify is an exact runtime-type equality check, so
booleans are rejected: set with a bool value on an Int8/Int16/Int32 field
raises FieldValidationError rather than treating the bool as an integer, and
the Struct is unchanged. -/
theorem C10_bool_value_rejected_by_int_fields (s : Struct) (name : String)
    (b : Bool) (f : Field) (hf : findField s.fields name = some f)
    (ht : f.type = Ty.int8 ∨ f.type = Ty.int16 ∨ f.type = Ty.int32) :
    f.type.verify (.bool b) = false ∧
    (s.set name (.bool b)).2 = some (.fieldValidationError name) ∧
    (s.set name (.bool b)).1 = s := by
  have hv : f.type.verify (.bool b) = false := by
    rcases ht with h | h | h <;> rw [h] <;> rfl
  obtain ⟨fields⟩ := s
  simp only [Struct.set]
  refine ⟨hv, ?_, ?_⟩
  · rw [findField_some_set_invalid fields name (.bool b) f hf hv]
  · rw [findField_some_set_invalid fields name (.bool b) f hf hv]

/-- Witness for C10: set of the bool true on an Int32 field named age raises
FieldValidationError. -/
theorem C10_bool_value_rejected_by_int_fields_witness :
    (Struct.set ⟨[⟨"age", Ty.int32, .none⟩]⟩ "age" (.bool true)).2
      = some (.fieldValidationError "age") := by
  exact (C10_bool_value_rejected_by_int_fields ⟨[⟨"age", Ty.int32, .none⟩]⟩
    "age" true ⟨"age", Ty.int32, .none⟩ (by decide) (Or.inr (Or.inr rfl))).2.1

/-- C1: the Struct-level round trip breaks on a String field. On the Struct
with the single field (s, String(5), value "hello"), Struct.write emits
exactly the five UTF-8 bytes of "hello", but Struct.read on that very stream
raises TypeError without decoding anything, because the loop calls
field.type.read(in_stream) while String.read declares size as a required
positional parameter (the length the String instance was constructed with is
never consulted). -/
theorem C1_struct_roundtrip_fails_on_string_field :
    Struct.write ⟨[⟨"s", Ty.string 5, .str [104, 101, 108, 108, 111]⟩]⟩
      = .ok [104, 101, 108, 108, 111] ∧
    Struct.read ⟨[⟨"s", Ty.string 5, .str [104, 101, 108, 108, 111]⟩]⟩
        [104, 101, 108, 108, 111]
      = (⟨[⟨"s", Ty.string 5, .str [104, 101, 108, 108, 111]⟩]⟩,
         .error .typeError) := by
  constructor <;> decide

/-- Counterexample to C2 as stated: String.read with declared size 5 on a
stream holding only the three bytes of "abc" does not fail with a short-read
error; it returns the truncated value "abc". -/
theorem C2_counterexample_string_short_read_truncates :
    StringT.read [97, 98, 99] 5 = .ok ([97, 98, 99], []) := by
  decide

/-- C2 amended: Int8, Int16 and Int32 fail with struct.error when the stream
has fewer bytes remaining than the declared width, never returning a truncated
or zero-padded value; String.read, by contrast, has no short-read check: on a
stream shorter than the declared size it decodes whatever bytes are available
and returns the (possibly truncated) result. -/
theorem C2_amended_short_read_behaviour (s : List Nat) (e : Endian) (size : Nat) :
    (s.length < 1 → Int8.read s e = .error .structError) ∧
    (s.length < 2 → Int16.read s e = .error .structError) ∧
    (s.length < 4 → Int32.read s e = .error .structError) ∧
    (s.length < size →
      StringT.read s size =
        match utf8Decode s with
        | some cps => .ok (cps, [])
        | Option.none => .error .unicodeDecodeError) := by
  refine ⟨fun h => ?_, fun h => ?_, fun h => ?_, fun h => ?_⟩
  · have hlen : ¬(1 ≤ s.length) := by omega
    simp [Int8.read, streamRead, st_unpack, hlen, Except.map]
  · have hlen : ¬(2 ≤ s.length) := by omega
    simp [Int16.read, streamRead, st_unpack, hlen, Except.map]
  · have hlen : ¬(4 ≤ s.length) := by omega
    simp [Int32.read, streamRead, st_unpack, hlen, Except.map]
  · have ht : s.take size = s := List.take_of_length_le (le_of_lt h)
    have hd : s.drop size = [] := List.drop_eq_nil_of_le (le_of_lt h)
    simp only [StringT.read, streamRead, ht, hd]

/-- Witness for C2 amended: on the empty stream all three integer reads fail
with struct.error, and String.read with size 1 returns the empty string. -/
theorem C2_amended_short_read_behaviour_witness :
    Int8.read [] Endian.little = .error .structError ∧
    Int16.read [] Endian.little = .error .structError ∧
    Int32.read [] Endian.little = .error .structError ∧
    StringT.read [] 1 = .ok ([], []) := by
  refine ⟨?_, ?_, ?_, ?_⟩
  · exact (C2_amended_short_read_behaviour [] Endian.little 1).1 (by decide)
  · exact (C2_amended_short_read_behaviour [] Endian.little 1).2.1 (by decide)
  · exact (C2_amended_short_read_behaviour [] Endian.little 1).2.2.1 (by decide)
  · exact (C2_amended_short_read_behaviour [] Endian.little 1).2.2.2 (by decide)

/-- C5: read and write process the fields exactly in declaration order: a
Struct with fields [A: Int8, B: Int16] writes A's byte followed by B's bytes
(the emitted stream is the concatenation of A's encoding then B's), and reads
A's value from the leading byte and B's from the two bytes after it, leaving
the remainder of the stream untouched. -/
theorem C5_fields_processed_in_declaration_order (nA nB : String) (a b : Int)
    (vA vB : PyValue) (extra : List Nat)
    (h1 : -128 ≤ a) (h2 : a < 128) (h3 : -32768 ≤ b) (h4 : b < 32768) :
    ∃ bytesA bytesB : List Nat,
      Ty.write Ty.int8 (.int a) = .ok bytesA ∧
      Ty.write Ty.int16 (.int b) = .ok bytesB ∧
      Struct.write ⟨[⟨nA, Ty.int8, .int a⟩, ⟨nB, Ty.int16, .int b⟩]⟩
        = .ok (bytesA ++ bytesB) ∧
      Struct.read ⟨[⟨nA, Ty.int8, vA⟩, ⟨nB, Ty.int16, vB⟩]⟩
          (bytesA ++ (bytesB ++ extra))
        = (⟨[⟨nA, Ty.int8, .int a⟩, ⟨nB, Ty.int16, .int b⟩]⟩, .ok extra) := by
  refine ⟨orient .little (leBytes 1 (Int.toNat (a % 2 ^ (8 * 1)))),
    orient .little (leBytes 2 (Int.toNat (b % 2 ^ (8 * 2)))), ?_, ?_, ?_, ?_⟩
  · exact st_pack_ok_1 .little a h1 h2
  · exact st_pack_ok_2 .little b h3 h4
  · show writeFields _ = _
    rw [writeFields, show Ty.write Ty.int8 (PyValue.int a) = st_pack 1 .little a
      from rfl, st_pack_ok_1 .little a h1 h2]
    rw [writeFields, show Ty.write Ty.int16 (PyValue.int b) = st_pack 2 .little b
      from rfl, st_pack_ok_2 .little b h3 h4]
    rw [writeFields]
    rfl
  · simp only [Struct.read, readFields, Ty.read]
    rw [int8_read_append Endian.little a
      (orient .little (leBytes 2 (Int.toNat (b % 2 ^ (8 * 2)))) ++ extra) h1 h2]
    simp only [Except.map]
    rw [int16_read_append Endian.little b extra h3 h4]

/-- Witness for C5: with A named a holding 1 and B named b holding 2, write
emits A's byte then B's two bytes, and read consumes them back in that order,
leaving a trailing byte unread. -/
theorem C5_fields_processed_in_declaration_order_witness :
    ∃ bytesA bytesB : List Nat,
      Ty.write Ty.int8 (.int 1) = .ok bytesA ∧
      Ty.write Ty.int16 (.int 2) = .ok bytesB ∧
      Struct.write ⟨[⟨"a", Ty.int8, .int 1⟩, ⟨"b", Ty.int16, .int 2⟩]⟩
        = .ok (bytesA ++ bytesB) ∧
      Struct.read ⟨[⟨"a", Ty.int8, .none⟩, ⟨"b", Ty.int16, .none⟩]⟩
          (bytesA ++ (bytesB ++ [9]))
        = (⟨[⟨"a", Ty.int8, .int 1⟩, ⟨"b", Ty.int16, .int 2⟩]⟩, .ok [9]) := by
  exact C5_fields_processed_in_declaration_order "a" "b" 1 2 .none .none [9]
    (by decide) (by decide) (by decide) (by decide)

/-- C7: the boundary values of each signed width round-trip through write
followed by read under the two's-complement encoding: Int8 round-trips -128
and 127, Int16 round-trips -32768 and 32767, Int32 round-trips -2147483648
and 2147483647. -/
theorem C7_boundary_values_roundtrip :
    (Int8.write (-128) .little).bind (fun bs => Int8.read bs .little)
      = .ok (-128, []) ∧
    (Int8.write 127 .little).bind (fun bs => Int8.read bs .little)
      = .ok (127, []) ∧
    (Int16.write (-32768) .little).bind (fun bs => Int16.read bs .little)
      = .ok (-32768, []) ∧
    (Int16.write 32767 .little).bind (fun bs => Int16.read bs .little)
      = .ok (32767, []) ∧
    (Int32.write (-2147483648) .little).bind (fun bs => Int32.read bs .little)
      = .ok (-2147483648, []) ∧
    (Int32.write 2147483647 .little).bind (fun bs => Int32.read bs .little)
      = .ok (2147483647, []) := by
  decide

/-- C8: Struct.read is sequential and non-atomic: when the read of field f
fails after the fields of pre were read successfully, the resulting Struct
keeps the freshly read values for the fields before f while f and every field
after it keep their prior values; nothing is rolled back. -/
theorem C8_partial_read_not_rolled_back (pre post : List Field) (f : Field)
    (s s' : List Nat) (pre' : List Field) (err : PyError)
    (h1 : readFields pre s = (pre', .ok s'))
    (h2 : f.type.read s' = .error err) :
    Struct.read ⟨pre ++ f :: post⟩ s = (⟨pre' ++ f :: post⟩, .error err) := by
  simp only [Struct.read]
  rw [readFields_append_error pre f post s s' pre' err h1 h2]

/-- Witness for C8: a three-field Struct read from a one-byte stream keeps the
freshly read first field while the second and third stay unset, and the error
propagates. -/
theorem C8_partial_read_not_rolled_back_witness :
    Struct.read ⟨[⟨"a", Ty.int8, .none⟩, ⟨"b", Ty.int16, .none⟩,
        ⟨"c", Ty.int8, .none⟩]⟩ [5]
      = (⟨[⟨"a", Ty.int8, .int 5⟩, ⟨"b", Ty.int16, .none⟩,
          ⟨"c", Ty.int8, .none⟩]⟩, .error .structError) := by
  exact C8_partial_read_not_rolled_back [⟨"a", Ty.int8, .none⟩]
    [⟨"c", Ty.int8, .none⟩] ⟨"b", Ty.int16, .none⟩ [5] []
    [⟨"a", Ty.int8, .int 5⟩] .structError (by decide) (by decide)

end BP
